import Mathlib

/-!
Verification development for `app.py` (car-service content analyzer).

The Python source is shallowly embedded:
  * the two `re` patterns of `extract_contact_info` are embedded as a small
    backtracking matcher (`Re`, `mre`, `findAll`) whose alternation order and
    greedy class-repetition order coincide with Python's `re` engine for the
    pattern constructs actually used (character classes, `(?:..|..)`, `?`,
    `{m,n}`, `+`, `\b`);
  * the section regexes of `_parse_detailed_response`
    (`marker(.*?)(?=Primary Services:|Secondary Services:|Additional Services:|$)`
    with `re.DOTALL | re.IGNORECASE`) are embedded by their operational
    meaning: first case-insensitive occurrence of the marker, lazy capture up
    to the least following position at which one of the three markers starts
    or the `$` anchor matches (end of text, or just before a final newline);
  * Python dicts holding the result are embedded as ordered association
    lists (`dictUpdate` replaces the first binding of an existing key in
    place and appends a fresh key, like Python dict assignment);
  * the Gemini model call is an injected function `String → Except String String`;
    the `try/except` of `analyze_content` becomes a `match` on the `Except`.

Character predicates (`\d`, `\s`, `\w`, `str.strip`, `re.IGNORECASE` folding)
are modelled at ASCII granularity: every character class in the source
patterns is ASCII, as is every input exercised by the claims.
-/

/-- ASCII whitespace stripped by Python `str.strip()` and matched by `\s`. -/
def isPySpace (c : Char) : Bool :=
  c == ' ' || c == '\t' || c == '\n' || c == '\r' || c == '\x0b' || c == '\x0c'

/-- Word characters of Python's `\b` boundary (ASCII part of `\w`). -/
def isWordChar (c : Char) : Bool :=
  c.isAlphanum || c == '_'

/-- Is there a `\b` word boundary at offset `i` of `cs`?  Positions outside
the text count as non-word. -/
def boundaryAt (cs : List Char) (i : Nat) : Bool :=
  let before := match i with
    | 0 => false
    | j + 1 => ((cs.get? j).map isWordChar).getD false
  let after := ((cs.get? i).map isWordChar).getD false
  before != after

/-- Length of the maximal run of characters satisfying `p` at the front. -/
def runLenFrom (p : Char → Bool) : List Char → Nat
  | [] => 0
  | c :: rest => if p c then runLenFrom p rest + 1 else 0

/-- Length of the maximal run of characters satisfying `p` starting at `i`. -/
def runLen (p : Char → Bool) (cs : List Char) (i : Nat) : Nat :=
  runLenFrom p (cs.drop i)

/-- Regular-expression fragment: exactly the constructs used by the two
patterns in `extract_contact_info`.  Repetition is restricted to character
classes, which is all the source patterns quantify over; this keeps the
greedy/backtracking behaviour of `mre` literally a descending count. -/
inductive Re where
  | eps
  | cls (p : Char → Bool)
  | cat (a b : Re)
  | alt (a b : Re)
  | repCls (p : Char → Bool) (lo : Nat) (hi : Option Nat)
  | wb

/-- Try repetition counts `m, m-1, ..., lo` (greedy order), feeding the end
position `pos + count` to the continuation `k`. -/
def tryDesc (k : Nat → Option Nat) (pos lo : Nat) : Nat → Option Nat
  | 0 => if lo = 0 then k pos else none
  | c + 1 =>
    if c + 1 < lo then none
    else
      match k (pos + (c + 1)) with
      | some e => some e
      | none => tryDesc k pos lo c

/-- Backtracking matcher in continuation-passing style: `mre cs re pos k`
attempts `re` at offset `pos` of `cs` and passes the end offset of each
candidate match to `k`, in the same preference order as Python's `re`
engine (left alternative first, greedy repetition longest first). -/
def mre (cs : List Char) : Re → Nat → (Nat → Option Nat) → Option Nat
  | .eps, pos, k => k pos
  | .cls p, pos, k =>
    match cs.get? pos with
    | some c => if p c then k (pos + 1) else none
    | none => none
  | .cat a b, pos, k => mre cs a pos (fun q => mre cs b q k)
  | .alt a b, pos, k =>
    match mre cs a pos k with
    | some e => some e
    | none => mre cs b pos k
  | .repCls p lo hi, pos, k =>
    let r := runLen p cs pos
    let m := match hi with
      | some h => min r h
      | none => r
    tryDesc k pos lo m
  | .wb, pos, k => if boundaryAt cs pos then k pos else none

/-- The substring of `cs` from offset `a` (inclusive) to `b` (exclusive). -/
def subStr (cs : List Char) (a b : Nat) : String :=
  String.mk ((cs.drop a).take (b - a))

/-- Scanning loop of `re.findall`: attempt a match at each position left to
right; on success record the matched text and resume after it (advancing by
one on an empty match). `fuel` bounds the number of scan steps. -/
def findAllAux (re : Re) (cs : List Char) : Nat → Nat → List String
  | 0, _ => []
  | fuel + 1, pos =>
    if pos > cs.length then []
    else
      match mre cs re pos some with
      | some e => subStr cs pos e :: findAllAux re cs fuel (if pos < e then e else pos + 1)
      | none => findAllAux re cs fuel (pos + 1)

/-- `re.findall(pattern, s)` for a pattern without capturing groups: the
list of non-overlapping matches, left to right. -/
def findAll (re : Re) (s : String) : List String :=
  findAllAux re s.toList (s.toList.length + 1) 0

/-- A single literal character, as a one-character class. -/
def litc (c : Char) : Re :=
  .cls (fun d => d == c)

/-- Right-nested concatenation of a list of fragments. -/
def cats (rs : List Re) : Re :=
  rs.foldr Re.cat Re.eps

/-- Greedy `(?:...)?`. -/
def opt (r : Re) : Re :=
  .alt r .eps

/-- `\d`. -/
def isDigitCh (c : Char) : Bool := c.isDigit

/-- `[-.\s]`. -/
def isSepCh (c : Char) : Bool := c == '-' || c == '.' || isPySpace c

/-- `[A-Za-z0-9._%+-]` (local part of the email pattern). -/
def isLocalCh (c : Char) : Bool :=
  c.isAlphanum || c == '.' || c == '_' || c == '%' || c == '+' || c == '-'

/-- `[A-Za-z0-9.-]` (domain part of the email pattern). -/
def isDomCh (c : Char) : Bool :=
  c.isAlphanum || c == '.' || c == '-'

/-- `[A-Z|a-z]` — note that this class really contains the literal `|`
character, exactly as written in the source pattern. -/
def isTldCh (c : Char) : Bool :=
  c.isUpper || c == '|' || c.isLower

/-- `r'\b(?:\+\d{1,3}[-.\s]?)?(?:\(\d{3}\)|\d{3})[-.\s]?\d{3}[-.\s]?\d{4}\b'`. -/
def phone_pattern : Re :=
  cats [.wb,
        opt (cats [litc '+', .repCls isDigitCh 1 (some 3), .repCls isSepCh 0 (some 1)]),
        .alt (cats [litc '(', .repCls isDigitCh 3 (some 3), litc ')'])
             (.repCls isDigitCh 3 (some 3)),
        .repCls isSepCh 0 (some 1),
        .repCls isDigitCh 3 (some 3),
        .repCls isSepCh 0 (some 1),
        .repCls isDigitCh 4 (some 4),
        .wb]

/-- `r'\b[A-Za-z0-9._%+-]+@[A-Za-z0-9.-]+\.[A-Z|a-z]{2,}\b'`. -/
def email_pattern : Re :=
  cats [.wb,
        .repCls isLocalCh 1 none,
        litc '@',
        .repCls isDomCh 1 none,
        litc '.',
        .repCls isTldCh 2 none,
        .wb]

/-- The dict returned by `extract_contact_info`. -/
structure ContactInfo where
  phones : List String
  emails : List String
  deriving Repr, DecidableEq

/-- `extract_contact_info(content)`: `re.findall` for each pattern, then
`list(set(...))`.  Python's set iteration order is unspecified;
`List.dedup` realizes one admissible order, and every claim about this
function is insensitive to the order of the deduplicated list. -/
def extract_contact_info (content : String) : ContactInfo :=
  { phones := (findAll phone_pattern content).dedup,
    emails := (findAll email_pattern content).dedup }

/-- Case-insensitive match of `pat` at offset `p` of `cs` (the folding of
`re.IGNORECASE`, at ASCII granularity: the markers are ASCII). -/
def ciEqAt (pat cs : List Char) (p : Nat) : Bool :=
  ((cs.drop p).take pat.length).map Char.toLower == pat.map Char.toLower

/-- Scan for the first case-insensitive occurrence of `pat`, from `p` on. -/
def firstOccurAux (pat cs : List Char) : Nat → Nat → Option Nat
  | 0, _ => none
  | fuel + 1, p =>
    if pat.length + p > cs.length then none
    else if ciEqAt pat cs p then some p
    else firstOccurAux pat cs fuel (p + 1)

/-- Offset of the first case-insensitive occurrence of `pat` in `cs`
(`re.search` for the marker part of the section regex). -/
def firstOccur (pat cs : List Char) : Option Nat :=
  firstOccurAux pat cs (cs.length + 1) 0

/-- The three section headers, in the order of the `service_sections` dict
of `_parse_detailed_response`: result key and marker text. -/
def service_sections : List (String × String) :=
  [("primary_services", "Primary Services:"),
   ("secondary_services", "Secondary Services:"),
   ("additional_services", "Additional Services:")]

/-- Does one of the three markers start (case-insensitively) at offset `e`?
This is the marker part of the lookahead
`(?=Primary Services:|Secondary Services:|Additional Services:|$)`. -/
def markerStartAt (cs : List Char) (e : Nat) : Bool :=
  ciEqAt "Primary Services:".toList cs e ||
  ciEqAt "Secondary Services:".toList cs e ||
  ciEqAt "Additional Services:".toList cs e

/-- Does `$` (no `re.MULTILINE`) match at offset `e`: end of text, or just
before a newline that ends the text. -/
def dollarAt (cs : List Char) (e : Nat) : Bool :=
  e == cs.length || (e + 1 == cs.length && cs.getLast? == some '\n')

/-- A position where the lookahead of the section regex succeeds, ending
the lazy capture `(.*?)`. -/
def stopAt (cs : List Char) (e : Nat) : Bool :=
  markerStartAt cs e || dollarAt cs e

/-- Scan right from `e` for the first stop position. -/
def captureEndAux (cs : List Char) : Nat → Nat → Nat
  | 0, e => e
  | fuel + 1, e => if stopAt cs e then e else captureEndAux cs fuel (e + 1)

/-- End of the lazy capture starting at `q`: the least stop position `≥ q`
(the scan always halts because `$` matches at `cs.length`). -/
def captureEnd (cs : List Char) (q : Nat) : Nat :=
  captureEndAux cs (cs.length + 1 - q) q

/-- The value of `section_match.group(1)` for one marker:
`re.search(marker(.*?)(?=...|$), response, re.DOTALL | re.IGNORECASE)`,
`none` when the marker does not occur. -/
def sectionCapture (marker response : String) : Option String :=
  let cs := response.toList
  match firstOccur marker.toList cs with
  | none => none
  | some p =>
    let q := p + marker.toList.length
    some (subStr cs q (captureEnd cs q))

/-- Python `str.strip(chars)`: remove the characters satisfying `p` from
both ends (all of them, not just one). -/
def pyStrip2 (p : Char → Bool) (l : List Char) : List Char :=
  (((l.dropWhile p).reverse).dropWhile p).reverse

/-- The bracket characters of `strip('[]')`. -/
def isBracketCh (c : Char) : Bool :=
  c == '[' || c == ']'

/-- `.replace('\n', ', ')` on the character list. -/
def replaceNl (l : List Char) : List Char :=
  l.flatMap (fun c => if c == '\n' then [',', ' '] else [c])

/-- Post-processing of a captured section body:
`.strip().strip('[]').replace('\n', ', ')`. -/
def postprocessBody (b : String) : String :=
  String.mk (replaceNl (pyStrip2 isBracketCh (pyStrip2 isPySpace b.toList)))

/-- Python dict assignment `d[k] = v` on an ordered association list:
replace the first binding of `k` in place, append if `k` is absent. -/
def dictUpdate : List (String × String) → String → String → List (String × String)
  | [], k, v => [(k, v)]
  | (k', v') :: rest, k, v =>
    if k' = k then (k, v) :: rest else (k', v') :: dictUpdate rest k v

/-- `_create_empty_result()`: the five-field dict, all values empty. -/
def create_empty_result : List (String × String) :=
  [("primary_services", ""), ("secondary_services", ""),
   ("additional_services", ""), ("phones", ""), ("emails", "")]

/-- One iteration of the `for key, section_header in service_sections`
loop: assign the post-processed capture when the regex matched. -/
def applySection (response : String) (d : List (String × String))
    (kv : String × String) : List (String × String) :=
  match sectionCapture kv.2 response with
  | some body => dictUpdate d kv.1 (postprocessBody body)
  | none => d

/-- Dict read `d[k]`: value of the first binding of `k`.  In the source the
read always succeeds because the five keys are always present (the content
of claim C3); the embedding totalizes it with a default. -/
def dget : List (String × String) → String → String
  | [], _ => ""
  | (k', v) :: rest, k => if k' = k then v else dget rest k

/-- `', '.join(xs)`. -/
def joinComma (xs : List String) : String :=
  String.intercalate ", " xs

/-- `_parse_detailed_response(response, original_content)`: parse the three
sections into the empty result, then overwrite `phones`/`emails` with the
comma-joined contact matches of the original content. -/
def parse_detailed_response (response original_content : String) :
    List (String × String) :=
  let result := service_sections.foldl (applySection response) create_empty_result
  let contact_info := extract_contact_info original_content
  dictUpdate (dictUpdate result "phones" (joinComma contact_info.phones))
    "emails" (joinComma contact_info.emails)

/-- The f-string prompt of `analyze_content`, transcribed verbatim
(including the indentation of the triple-quoted literal). -/
def buildPrompt (content : String) : String :=
  "\n        Thoroughly analyze this car service center description and extract detailed information:\n\n        Description: "
    ++ content ++
    "\n\n        Categorize services into:\n        1. Primary Services: Core, main services the center specializes in\n        2. Secondary Services: Additional, supporting services\n        3. Additional Services: Supplementary or optional services\n\n        Provide the output in this structured format:\n        Primary Services: [List primary services]\n        Secondary Services: [List secondary services]\n        Additional Services: [List additional services]\n        "

/-- `analyze_content(content)` with the opaque model call injected as
`analyzeFn`.  The `try/except` block returns the parse of the response on
success and `_create_empty_result()` on any failure; in the embedding the
parsing step is a total function, so the only failure source is the model
call itself. -/
def analyze_content (analyzeFn : String → Except String String)
    (content : String) : List (String × String) :=
  match analyzeFn (buildPrompt content) with
  | Except.ok resp => parse_detailed_response resp content
  | Except.error _ => create_empty_result

/-- One input spreadsheet row, with the eight columns read by
`process_file`; each field holds the string-coerced cell value
(`str(row.get(col, ''))` for `All_Content`, `row.get(col, '')` for the
seven copied columns). -/
structure InputRow where
  Name : String
  Address : String
  Rating_text : String
  Opening_Time : String
  Phone_Number : String
  GMAP : String
  Website : String
  All_Content : String
  deriving Repr, DecidableEq

/-- One output row: the seven retained columns plus the five analysis
columns, as built by the `processed_row` dict of `process_file`. -/
structure OutputRow where
  Name : String
  Address : String
  Rating_text : String
  Opening_Time : String
  Phone_Number : String
  GMAP : String
  Website : String
  Primary_Services : String
  Secondary_Services : String
  Additional_Services : String
  Extracted_Phones : String
  Extracted_Emails : String
  deriving Repr, DecidableEq

/-- Python `str.strip()` (no argument): both-ends whitespace strip. -/
def pyStrip (s : String) : String :=
  String.mk (pyStrip2 isPySpace s.toList)

/-- The body of the per-row loop of `process_file`: analyze non-blank
content (`if all_content.strip():`), otherwise use the empty result, then
build the output row from the retained columns and the analysis dict. -/
def process_row (analyzeFn : String → Except String String)
    (row : InputRow) : OutputRow :=
  let all_content := row.All_Content
  let analysis :=
    if pyStrip all_content ≠ "" then analyze_content analyzeFn all_content
    else create_empty_result
  { Name := row.Name
    Address := row.Address
    Rating_text := row.Rating_text
    Opening_Time := row.Opening_Time
    Phone_Number := row.Phone_Number
    GMAP := row.GMAP
    Website := row.Website
    Primary_Services := dget analysis "primary_services"
    Secondary_Services := dget analysis "secondary_services"
    Additional_Services := dget analysis "additional_services"
    Extracted_Phones := dget analysis "phones"
    Extracted_Emails := dget analysis "emails" }

/-- `process_file` restricted to its row-processing loop (the Excel
reading/writing is the external source/sink collaborator): iterate the
rows in order, appending one processed row per input row. -/
def process_file (rows : List InputRow)
    (analyzeFn : String → Except String String) : List OutputRow :=
  rows.map (process_row analyzeFn)

/-- An input row with every column blank except possibly `All_Content`. -/
def mkRow (content : String) : InputRow :=
  { Name := "", Address := "", Rating_text := "", Opening_Time := ""
    Phone_Number := "", GMAP := "", Website := "", All_Content := content }

/-- The content of end-to-end scenario 1 of the specification. -/
def c1content : String :=
  "Call us at 555-123-4567 or email info@example.com for brake repair."

/-- A model call that fails on every prompt. -/
def failFn : String → Except String String :=
  fun _ => Except.error "model failure"

/-- A model call that succeeds with a fixed well-formed response. -/
def okFn : String → Except String String :=
  fun _ => Except.ok "Primary Services: [Oil change]\nSecondary Services: [Tire rotation]\nAdditional Services: [Car wash]"

/-- The five keys of the analysis dict, in insertion order. -/
def resultKeys : List String :=
  ["primary_services", "secondary_services", "additional_services", "phones", "emails"]

/-- Updating an existing key does not change the key sequence of the dict. -/
theorem dictUpdate_map_fst (d : List (String × String)) (k v : String)
    (h : k ∈ d.map Prod.fst) :
    (dictUpdate d k v).map Prod.fst = d.map Prod.fst := by
  induction d with
  | nil => simp at h
  | cons hd tl ih =>
    obtain ⟨k', v'⟩ := hd
    by_cases hk : k' = k
    · subst hk
      simp [dictUpdate]
    · simp only [List.map_cons, List.mem_cons] at h
      rcases h with h | h
      · exact absurd h.symm hk
      · simp [dictUpdate, hk, ih h]

/-- Reading back the key just assigned returns the assigned value. -/
theorem dget_dictUpdate_self (d : List (String × String)) (k v : String) :
    dget (dictUpdate d k v) k = v := by
  induction d with
  | nil => simp [dictUpdate, dget]
  | cons hd tl ih =>
    obtain ⟨k', v'⟩ := hd
    by_cases hk : k' = k
    · subst hk
      simp [dictUpdate, dget]
    · simp [dictUpdate, hk, dget, ih]

/-- Assigning one key does not change the value read at another key. -/
theorem dget_dictUpdate_ne (d : List (String × String)) (k k' v : String)
    (h : k' ≠ k) :
    dget (dictUpdate d k' v) k = dget d k := by
  induction d with
  | nil => simp [dictUpdate, dget, h]
  | cons hd tl ih =>
    obtain ⟨a, b⟩ := hd
    by_cases ha : a = k'
    · subst ha
      simp [dictUpdate, dget, h]
    · by_cases hak : a = k
      · subst hak
        simp [dictUpdate, ha, dget]
      · simp [dictUpdate, ha, dget, hak, ih]

/-- A section step keeps the key sequence of the dict unchanged. -/
theorem applySection_map_fst (r : String) (d : List (String × String))
    (kv : String × String) (h : kv.1 ∈ d.map Prod.fst) :
    (applySection r d kv).map Prod.fst = d.map Prod.fst := by
  unfold applySection
  cases hc : sectionCapture kv.2 r with
  | none => rfl
  | some body => exact dictUpdate_map_fst d kv.1 (postprocessBody body) h

/-- A section step does not change the value at a different key. -/
theorem dget_applySection_ne (r : String) (d : List (String × String))
    (kv : String × String) (k : String) (h : kv.1 ≠ k) :
    dget (applySection r d kv) k = dget d k := by
  unfold applySection
  cases hc : sectionCapture kv.2 r with
  | none => rfl
  | some body => exact dget_dictUpdate_ne d k kv.1 (postprocessBody body) h

/-- Value at a section's own key after its step: the post-processed capture
when the regex matched, the previous value otherwise. -/
theorem dget_applySection_self (r : String) (d : List (String × String))
    (kv : String × String) :
    dget (applySection r d kv) kv.1 =
      (match sectionCapture kv.2 r with
       | some body => postprocessBody body
       | none => dget d kv.1) := by
  unfold applySection
  cases hc : sectionCapture kv.2 r with
  | none => rfl
  | some body => simp [dget_dictUpdate_self]

/-- Soundness of the marker scan: a returned offset is an occurrence, lies
in range, and is preceded by no occurrence at or after the start offset. -/
theorem firstOccurAux_spec (pat cs : List Char) :
    ∀ fuel p q : Nat, firstOccurAux pat cs fuel p = some q →
      p ≤ q ∧ pat.length + q ≤ cs.length ∧ ciEqAt pat cs q = true ∧
      ∀ j, p ≤ j → j < q → ciEqAt pat cs j = false := by
  intro fuel
  induction fuel with
  | zero =>
    intro p q h
    simp [firstOccurAux] at h
  | succ n ih =>
    intro p q h
    simp only [firstOccurAux] at h
    by_cases hg : pat.length + p > cs.length
    · rw [if_pos hg] at h
      cases h
    · rw [if_neg hg] at h
      by_cases hc : ciEqAt pat cs p = true
      · rw [if_pos hc] at h
        cases h
        exact ⟨Nat.le_refl p, by omega, hc, fun j h1 h2 => by omega⟩
      · rw [if_neg hc] at h
        obtain ⟨h1, h2, h3, h4⟩ := ih (p + 1) q h
        refine ⟨by omega, h2, h3, fun j hj1 hj2 => ?_⟩
        by_cases hje : j = p
        · subst hje
          exact Bool.not_eq_true _ |>.mp hc
        · exact h4 j (by omega) hj2

/-- `firstOccur` finds the first case-insensitive occurrence. -/
theorem firstOccur_spec (pat cs : List Char) (q : Nat)
    (h : firstOccur pat cs = some q) :
    pat.length + q ≤ cs.length ∧ ciEqAt pat cs q = true ∧
      ∀ j, j < q → ciEqAt pat cs j = false := by
  obtain ⟨_, h2, h3, h4⟩ := firstOccurAux_spec pat cs (cs.length + 1) 0 q h
  exact ⟨h2, h3, fun j hj => h4 j (Nat.zero_le j) hj⟩

/-- The `$` anchor, hence the lookahead, matches at end of text. -/
theorem stopAt_length (cs : List Char) : stopAt cs cs.length = true := by
  simp [stopAt, dollarAt]

/-- Soundness of the capture scan: with enough fuel it returns the least
stop position at or after the start offset. -/
theorem captureEndAux_spec (cs : List Char) :
    ∀ fuel q : Nat, cs.length < q + fuel → q ≤ cs.length →
      q ≤ captureEndAux cs fuel q ∧
      stopAt cs (captureEndAux cs fuel q) = true ∧
      ∀ j, q ≤ j → j < captureEndAux cs fuel q → stopAt cs j = false := by
  intro fuel
  induction fuel with
  | zero =>
    intro q h1 h2
    omega
  | succ n ih =>
    intro q h1 h2
    simp only [captureEndAux]
    by_cases hs : stopAt cs q = true
    · rw [if_pos hs]
      exact ⟨Nat.le_refl q, hs, fun j hj1 hj2 => by omega⟩
    · rw [if_neg hs]
      have hq : q ≠ cs.length := fun he => hs (he ▸ stopAt_length cs)
      obtain ⟨h3, h4, h5⟩ := ih (q + 1) (by omega) (by omega)
      refine ⟨by omega, h4, fun j hj1 hj2 => ?_⟩
      by_cases hje : j = q
      · subst hje
        exact Bool.not_eq_true _ |>.mp hs
      · exact h5 j (by omega) hj2

/-- `captureEnd cs q` is the least lookahead-stop position `≥ q`. -/
theorem captureEnd_spec (cs : List Char) (q : Nat) (h : q ≤ cs.length) :
    q ≤ captureEnd cs q ∧ stopAt cs (captureEnd cs q) = true ∧
      ∀ j, q ≤ j → j < captureEnd cs q → stopAt cs j = false :=
  captureEndAux_spec cs (cs.length + 1 - q) q (by omega) h

/-- The head of `dropWhile p` does not satisfy `p`. -/
theorem dropWhile_head?_false (p : Char → Bool) :
    ∀ (l : List Char) (c : Char), (l.dropWhile p).head? = some c → p c = false := by
  intro l
  induction l with
  | nil => intro c h; simp [List.dropWhile] at h
  | cons x t ih =>
    intro c h
    by_cases hx : p x
    · rw [List.dropWhile_cons, if_pos hx] at h
      exact ih c h
    · rw [List.dropWhile_cons, if_neg hx] at h
      cases h
      exact Bool.not_eq_true _ |>.mp hx

/-- `pyStrip2 p` removes exactly a block of `p`-characters from each end:
the input splits as `pre ++ stripped ++ suf` with `pre` and `suf` made of
`p`-characters only. -/
theorem pyStrip2_decomp (p : Char → Bool) (l : List Char) :
    ∃ pre suf, l = pre ++ pyStrip2 p l ++ suf ∧
      pre.all p = true ∧ suf.all p = true := by
  refine ⟨l.takeWhile p, (((l.dropWhile p).reverse).takeWhile p).reverse, ?_, ?_, ?_⟩
  · conv_lhs => rw [← List.takeWhile_append_dropWhile p l]
    rw [List.append_assoc]
    congr 1
    conv_lhs =>
      rw [← List.reverse_reverse (l.dropWhile p),
        ← List.takeWhile_append_dropWhile p (l.dropWhile p).reverse]
    rw [List.reverse_append]
    rfl
  · rw [List.all_eq_true]
    intro c hc
    exact List.mem_takeWhile_imp hc
  · rw [List.all_eq_true]
    intro c hc
    rw [List.mem_reverse] at hc
    exact List.mem_takeWhile_imp hc

/-- After `pyStrip2 p`, the last character (if any) does not satisfy `p`. -/
theorem pyStrip2_getLast?_false (p : Char → Bool) (l : List Char) (c : Char)
    (h : (pyStrip2 p l).getLast? = some c) : p c = false := by
  unfold pyStrip2 at h
  rw [List.getLast?_reverse] at h
  exact dropWhile_head?_false p _ c h

/-- After `pyStrip2 p`, the first character (if any) does not satisfy `p`. -/
theorem pyStrip2_head?_false (p : Char → Bool) (l : List Char) (c : Char)
    (h : (pyStrip2 p l).head? = some c) : p c = false := by
  unfold pyStrip2 at h
  rw [List.head?_reverse] at h
  have hnn : ((l.dropWhile p).reverse).dropWhile p ≠ [] := by
    intro he
    rw [he] at h
    simp at h
  have hlast : (((l.dropWhile p).reverse).dropWhile p).getLast? =
      ((l.dropWhile p).reverse).getLast? := by
    conv_rhs => rw [← List.takeWhile_append_dropWhile p (l.dropWhile p).reverse]
    rw [List.getLast?_append_of_ne_nil _ hnn]
  rw [hlast, List.getLast?_reverse] at h
  exact dropWhile_head?_false p l c h

/-- Value of one section key in the final result dict: its own capture,
post-processed, or the empty default when its marker never matched. -/
theorem dget_parse_section (r t key marker : String)
    (hkm : (key, marker) ∈ service_sections) :
    dget (parse_detailed_response r t) key =
      (match sectionCapture marker r with
       | some body => postprocessBody body
       | none => "") := by
  simp only [service_sections, List.mem_cons, List.not_mem_nil, or_false] at hkm
  rcases hkm with hkm | hkm | hkm <;>
    (obtain ⟨hk, hm⟩ : _ ∧ _ := by
      exact ⟨congrArg Prod.fst hkm, congrArg Prod.snd hkm⟩) <;>
    subst hk <;> subst hm <;>
    cases h1 : sectionCapture "Primary Services:" r <;>
    cases h2 : sectionCapture "Secondary Services:" r <;>
    cases h3 : sectionCapture "Additional Services:" r <;>
    simp [parse_detailed_response, service_sections, applySection, h1, h2, h3,
      dictUpdate, dget, create_empty_result]

/-- A model-call failure on a row leaves every analysis field of that row's
output at the empty default (the `except` branch of `analyze_content`). -/
theorem process_row_model_error (fn : String → Except String String)
    (row : InputRow) (e : String)
    (h : fn (buildPrompt row.All_Content) = Except.error e) :
    (process_row fn row).Primary_Services = "" ∧
    (process_row fn row).Secondary_Services = "" ∧
    (process_row fn row).Additional_Services = "" ∧
    (process_row fn row).Extracted_Phones = "" ∧
    (process_row fn row).Extracted_Emails = "" := by
  have hA : (if pyStrip row.All_Content ≠ "" then analyze_content fn row.All_Content
      else create_empty_result) = create_empty_result := by
    by_cases hc : pyStrip row.All_Content ≠ ""
    · rw [if_pos hc]
      unfold analyze_content
      rw [h]
    · rw [if_neg hc]
  refine ⟨?_, ?_, ?_, ?_, ?_⟩
  all_goals
    show dget (if pyStrip row.All_Content ≠ "" then analyze_content fn row.All_Content
      else create_empty_result) _ = ""
    rw [hA]
    decide

/-- C1 (counterexample): for the scenario-1 row, whose content does contain
a phone number and an email address, a failing model call yields an output
row with `Extracted_Phones = Extracted_Emails = ""`, while the comma-joined
contacts extracted from the raw content are `"555-123-4567"` and
`"info@example.com"` — so the claimed equality fails on this input. -/
theorem C1_counterexample :
    (process_file [mkRow c1content] failFn).map (fun out => out.Extracted_Phones) = [""] ∧
    (process_file [mkRow c1content] failFn).map (fun out => out.Extracted_Emails) = [""] ∧
    joinComma (extract_contact_info c1content).phones = "555-123-4567" ∧
    joinComma (extract_contact_info c1content).emails = "info@example.com" ∧
    ("" : String) ≠ "555-123-4567" :=
  ⟨by decide, by decide, by decide, by decide, by decide⟩

/-- C1 (amended): for every row, if the model call fails then ALL five
analysis fields of the row's output — the three service fields and also
`Extracted_Phones` and `Extracted_Emails` — are the empty string: contact
extraction runs only inside the response-parsing path, which a model
failure skips entirely. -/
theorem C1_amended (fn : String → Except String String) (row : InputRow)
    (e : String) (h : fn (buildPrompt row.All_Content) = Except.error e) :
    (process_row fn row).Primary_Services = "" ∧
    (process_row fn row).Secondary_Services = "" ∧
    (process_row fn row).Additional_Services = "" ∧
    (process_row fn row).Extracted_Phones = "" ∧
    (process_row fn row).Extracted_Emails = "" :=
  process_row_model_error fn row e h

/-- Witness for C1: the amended statement instantiated at the scenario-1
row and an always-failing model call. -/
theorem C1_amended_witness :
    failFn (buildPrompt (mkRow c1content).All_Content) = Except.error "model failure" ∧
    (process_row failFn (mkRow c1content)).Extracted_Phones = "" ∧
    (process_row failFn (mkRow c1content)).Extracted_Emails = "" :=
  ⟨rfl,
   (C1_amended failFn (mkRow c1content) "model failure" rfl).2.2.2.1,
   (C1_amended failFn (mkRow c1content) "model failure" rfl).2.2.2.2⟩

/-- C2 (counterexample): on the response `"Primary Services: A\n"` no
marker occurs after the first one, so the claim says the capture runs to
end-of-text, i.e. `" A\n"`; the code's capture is `" A"` because the `$`
anchor of the lookahead also matches just before a trailing newline. -/
theorem C2_counterexample :
    sectionCapture "Primary Services:" "Primary Services: A\n" = some " A" ∧
    (List.range 21).all
      (fun j => !(markerStartAt ("Primary Services: A\n".toList) (17 + j))) = true ∧
    subStr ("Primary Services: A\n".toList) 17 ("Primary Services: A\n".toList.length) = " A\n" ∧
    (" A" : String) ≠ " A\n" :=
  ⟨by decide, by decide, by decide, by decide⟩

/-- C2 (amended): for each of the three section markers, the parser
locates the marker's first case-insensitive occurrence and captures
exactly the text from immediately after it up to (but not including) the
least following position at which any of the three markers starts or the
`$` anchor matches — i.e. up to the next marker occurrence, or to
end-of-text if none follows, except that a single final newline is
excluded; this holds for every response, in whatever order the markers
appear. -/
theorem C2_amended (marker response : String)
    (_hm : marker ∈ service_sections.map Prod.snd)
    (p : Nat) (hp : firstOccur marker.toList response.toList = some p) :
    (ciEqAt marker.toList response.toList p = true ∧
      ∀ j, j < p → ciEqAt marker.toList response.toList j = false) ∧
    sectionCapture marker response =
      some (subStr response.toList (p + marker.toList.length)
        (captureEnd response.toList (p + marker.toList.length))) ∧
    p + marker.toList.length ≤ captureEnd response.toList (p + marker.toList.length) ∧
    stopAt response.toList (captureEnd response.toList (p + marker.toList.length)) = true ∧
    (∀ j, p + marker.toList.length ≤ j →
      j < captureEnd response.toList (p + marker.toList.length) →
      stopAt response.toList j = false) := by
  obtain ⟨hlen, hci, hmin⟩ := firstOccur_spec marker.toList response.toList p hp
  have hq : p + marker.toList.length ≤ response.toList.length := by omega
  obtain ⟨h1, h2, h3⟩ := captureEnd_spec response.toList (p + marker.toList.length) hq
  refine ⟨⟨hci, hmin⟩, ?_, h1, h2, h3⟩
  simp only [sectionCapture, hp]

/-- A concrete two-section response used by the C2 witness. -/
def c2resp : String := "Primary Services: A\nSecondary Services: B"

/-- Witness for C2: the amended statement at a concrete response whose
first marker occurs at offset 0; the capture runs up to the second marker,
keeping the interior newline. -/
theorem C2_amended_witness :
    sectionCapture "Primary Services:" c2resp =
      some (subStr c2resp.toList (0 + "Primary Services:".toList.length)
        (captureEnd c2resp.toList (0 + "Primary Services:".toList.length))) ∧
    sectionCapture "Primary Services:" c2resp = some " A\n" :=
  ⟨(C2_amended "Primary Services:" c2resp (by decide) 0 (by decide)).2.1,
   by decide⟩

/-- C3: the record produced by parsing a response and extracting contacts
from raw text always carries exactly the five fields, in order
`primary_services, secondary_services, additional_services, phones,
emails`; the computation is a total function, so it never fails and never
omits a field. -/
theorem C3_result_fields (r t : String) :
    (parse_detailed_response r t).map Prod.fst = resultKeys := by
  cases h1 : sectionCapture "Primary Services:" r <;>
    cases h2 : sectionCapture "Secondary Services:" r <;>
      cases h3 : sectionCapture "Additional Services:" r <;>
        simp [parse_detailed_response, service_sections, applySection, h1, h2, h3,
          dictUpdate, resultKeys, create_empty_result]

/-- C4: the batch produces exactly one output row per input row, in input
order (it is the pointwise image of the row processor, so each output row
depends only on its own input row); and a row whose model call fails gets
empty service fields, without affecting any other row. -/
theorem C4_batch_order (rows : List InputRow) (fn : String → Except String String) :
    (process_file rows fn).length = rows.length ∧
    (∀ (i : Nat) (h1 : i < rows.length) (h2 : i < (process_file rows fn).length),
      (process_file rows fn).get ⟨i, h2⟩ = process_row fn (rows.get ⟨i, h1⟩)) ∧
    (∀ (row : InputRow) (e : String),
      fn (buildPrompt row.All_Content) = Except.error e →
      (process_row fn row).Primary_Services = "" ∧
      (process_row fn row).Secondary_Services = "" ∧
      (process_row fn row).Additional_Services = "") := by
  refine ⟨by simp [process_file], ?_, ?_⟩
  · intro i h1 h2
    simp [process_file]
  · intro row e h
    obtain ⟨g1, g2, g3, _, _⟩ := process_row_model_error fn row e h
    exact ⟨g1, g2, g3⟩

/-- Witness for C4: a three-row batch processed with an always-failing
model call still yields three rows, and a failing row's service fields
are empty. -/
theorem C4_batch_order_witness :
    (process_file [mkRow c1content, mkRow "", mkRow "oil change shop"] failFn).length = 3 ∧
    (process_row failFn (mkRow c1content)).Primary_Services = "" :=
  ⟨by
    rw [(C4_batch_order [mkRow c1content, mkRow "", mkRow "oil change shop"] failFn).1]
    rfl,
   ((C4_batch_order [mkRow c1content, mkRow "", mkRow "oil change shop"] failFn).2.2
      (mkRow c1content) "model failure" rfl).1⟩

/-- C5 (counterexample): on the body `"[[Oil change]]"` the code strips
BOTH bracket pairs (`strip('[]')` removes all leading/trailing bracket
characters), yielding `"Oil change"`, whereas the claim — one pair at most
— predicts `"[Oil change]"`. -/
theorem C5_counterexample :
    dget (parse_detailed_response "Primary Services: [[Oil change]]" "")
      "primary_services" = "Oil change" ∧
    ("Oil change" : String) ≠ "[Oil change]" :=
  ⟨by decide, by decide⟩

/-- C5 (amended): a captured body is first trimmed of whitespace, then ALL
leading and trailing `[`/`]` characters are removed (not just one pair: the
trimmed body splits as a bracket-only prefix, the kept core — which
neither starts nor ends with a bracket — and a bracket-only suffix), and
finally newlines are replaced by `", "`; in particular
`"[Oil change, Tire rotation]"` parses to `"Oil change, Tire rotation"`. -/
theorem C5_amended (b : String) :
    postprocessBody b =
      String.mk (replaceNl (pyStrip2 isBracketCh (pyStrip2 isPySpace b.toList))) ∧
    (∃ pre suf, pyStrip2 isPySpace b.toList =
        pre ++ pyStrip2 isBracketCh (pyStrip2 isPySpace b.toList) ++ suf ∧
      pre.all isBracketCh = true ∧ suf.all isBracketCh = true) ∧
    (∀ c, (pyStrip2 isBracketCh (pyStrip2 isPySpace b.toList)).head? = some c →
      isBracketCh c = false) ∧
    (∀ c, (pyStrip2 isBracketCh (pyStrip2 isPySpace b.toList)).getLast? = some c →
      isBracketCh c = false) ∧
    postprocessBody "[Oil change, Tire rotation]" = "Oil change, Tire rotation" :=
  ⟨rfl,
   pyStrip2_decomp isBracketCh (pyStrip2 isPySpace b.toList),
   fun c => pyStrip2_head?_false isBracketCh (pyStrip2 isPySpace b.toList) c,
   fun c => pyStrip2_getLast?_false isBracketCh (pyStrip2 isPySpace b.toList) c,
   by decide⟩

/-- Witness for C5: the amended statement at the doubly-bracketed body;
the kept core starts with `O`, not a bracket. -/
theorem C5_amended_witness :
    postprocessBody "[[Oil change]]" = "Oil change" ∧ isBracketCh 'O' = false :=
  ⟨by decide, (C5_amended "[[Oil change]]").2.2.1 'O' (by decide)⟩

/-- C6: when one of the three markers has no case-insensitive occurrence
in the response, parsing still succeeds: that marker's field stays at the
empty default, and any marker that does occur gets its post-processed
capture as usual. -/
theorem C6_missing_marker (r t key marker : String)
    (hkm : (key, marker) ∈ service_sections)
    (h : firstOccur marker.toList r.toList = none) :
    dget (parse_detailed_response r t) key = "" ∧
    (∀ key2 marker2 body, (key2, marker2) ∈ service_sections →
      sectionCapture marker2 r = some body →
      dget (parse_detailed_response r t) key2 = postprocessBody body) := by
  constructor
  · rw [dget_parse_section r t key marker hkm]
    have hc : sectionCapture marker r = none := by
      simp only [sectionCapture]
      rw [h]
    rw [hc]
  · intro key2 marker2 body hkm2 hc2
    rw [dget_parse_section r t key2 marker2 hkm2, hc2]

/-- Witness for C6: `"Secondary Services: B"` lacks the primary marker, so
`primary_services` is empty while `secondary_services` parses to `"B"`. -/
theorem C6_missing_marker_witness :
    dget (parse_detailed_response "Secondary Services: B" "") "primary_services" = "" ∧
    dget (parse_detailed_response "Secondary Services: B" "") "secondary_services" = "B" := by
  have h := C6_missing_marker "Secondary Services: B" "" "primary_services"
    "Primary Services:" (by decide) (by decide)
  refine ⟨h.1, ?_⟩
  rw [h.2 "secondary_services" "Secondary Services:" " B" (by decide) (by decide)]
  decide

/-- C7: a row whose `All_Content` strips to the empty string is processed
without any model call — the output is the same function of the row for
every injected model-call function — and all five analysis fields of its
output row are empty. -/
theorem C7_blank_content (row : InputRow) (fn fn2 : String → Except String String)
    (h : pyStrip row.All_Content = "") :
    process_row fn row = process_row fn2 row ∧
    (process_row fn row).Primary_Services = "" ∧
    (process_row fn row).Secondary_Services = "" ∧
    (process_row fn row).Additional_Services = "" ∧
    (process_row fn row).Extracted_Phones = "" ∧
    (process_row fn row).Extracted_Emails = "" := by
  have hA : ∀ g : String → Except String String,
      (if pyStrip row.All_Content ≠ "" then analyze_content g row.All_Content
        else create_empty_result) = create_empty_result := by
    intro g
    rw [if_neg (by simp [h])]
  refine ⟨?_, ?_, ?_, ?_, ?_, ?_⟩
  · simp only [process_row]
    rw [hA fn, hA fn2]
  all_goals
    show dget (if pyStrip row.All_Content ≠ "" then analyze_content fn row.All_Content
      else create_empty_result) _ = ""
    rw [hA fn]
    decide

/-- Witness for C7: a whitespace-only row processed under a failing and
under a succeeding model call gives the same all-empty output. -/
theorem C7_blank_content_witness :
    pyStrip (mkRow "   ").All_Content = "" ∧
    process_row failFn (mkRow "   ") = process_row okFn (mkRow "   ") ∧
    (process_row failFn (mkRow "   ")).Extracted_Phones = "" :=
  ⟨by decide,
   (C7_blank_content (mkRow "   ") failFn okFn (by decide)).1,
   (C7_blank_content (mkRow "   ") failFn okFn (by decide)).2.2.2.2.1⟩

/-- C8: the extractor never returns duplicate phone or email entries
(deduplication by exact, case-sensitive string equality). -/
theorem C8_no_duplicates (t : String) :
    (extract_contact_info t).phones.Nodup ∧ (extract_contact_info t).emails.Nodup :=
  ⟨List.nodup_dedup (findAll phone_pattern t),
   List.nodup_dedup (findAll email_pattern t)⟩

/-- C9: extracting contacts from the empty string yields two empty
sequences (and, being a total function, never fails). -/
theorem C9_empty_input :
    extract_contact_info "" = { phones := [], emails := [] } := by
  decide

/-- C10: the terminal character class of the email pattern is `[A-Z|a-z]`,
which contains the literal `|`; on input `"a@b.c|d"` the extractor indeed
returns the email `"a@b.c|d"`, whose final domain label `"c|d"` (the
segment after the last dot) contains `|`, a non-letter. -/
theorem C10_pipe_in_email :
    (extract_contact_info "a@b.c|d").emails = ["a@b.c|d"] ∧
    ("a@b.c|d".toList.reverse.takeWhile (fun c => c != '.')).reverse = "c|d".toList ∧
    '|' ∈ "c|d".toList ∧
    isTldCh '|' = true ∧
    '|'.isAlpha = false :=
  ⟨by decide, by decide, by decide, by decide, by decide⟩
